import Mathlib

/-
Verification of the ytui-music fetcher (src/fetcher/src/utils.rs).

Shallow embedding of the fetcher state machine. The HTTP transport is
modelled by an oracle `net : String → TransportResult α` giving, for each
full request URL, what the transport layer and JSON deserializer produce:
a successfully deserialized value, a success whose body fails to
deserialize, or a transport failure (connection error / timeout). The
reqwest client object carries no observable state relevant to the claims
and is omitted from the state record. Machine integers that never
overflow on the considered inputs are modelled by Nat; the one place
overflow semantics matter (the u64 arithmetic in from_string) carries an
explicit mod 2^64.
-/

set_option maxRecDepth 4000

/-- Result item DTO (external crate; fields as used by the repository's
test `check_format`). Treated by the core as an indivisible value. -/
structure MusicUnit where
  liked : Bool
  artist : String
  name : String
  duration : String
  path : String
deriving DecidableEq, Repr

/-- Playlist result item (external DTO; never inspected by utils.rs). -/
structure PlaylistUnit where
deriving DecidableEq, Repr

/-- Artist result item (external DTO; never inspected by utils.rs). -/
structure ArtistUnit where
deriving DecidableEq, Repr

/-- The crate's ReturnAction error taxonomy, with the three variants used
by utils.rs: Retry, Failed, EOR (end of results). -/
inductive ReturnAction where
  | Retry
  | Failed
  | EOR
deriving DecidableEq, Repr

/-- SearchRes: per-category pair of (last fetched batch, backend page
cursor), as initialized in Fetcher::new. -/
structure SearchRes where
  music : List MusicUnit × Nat
  playlist : List PlaylistUnit × Nat
  artist : List ArtistUnit × Nat
deriving DecidableEq, Repr

/-- The Fetcher state: trending cache, search cache (cached query string
paired with SearchRes), server pool and active server index. The reqwest
client field is omitted (transport is the oracle). -/
structure Fetcher where
  trending_now : Option (List MusicUnit)
  search_res : String × SearchRes
  servers : List String
  active_server_index : Nat
deriving DecidableEq, Repr

/-- Outcome of one transport attempt for a given URL: response that
deserializes into the target type, response whose body fails to
deserialize, or a transport error. -/
inductive TransportResult (α : Type) where
  | ok (v : α)
  | badBody
  | netErr
deriving DecidableEq, Repr

def ITEM_PER_PAGE : Nat := 10

def REGION : String := "region=NP"

def MUSIC_FIELDS : String := "fields=videoId,title,author,lengthSeconds"

/-- Fetcher::new from utils.rs lines 32-58. -/
def Fetcher.new : Fetcher :=
  { trending_now := none
    search_res :=
      ("", { music := ([], 0), playlist := ([], 0), artist := ([], 0) })
    servers :=
      [ "https://invidious.snopyta.org/api/v1"
      , "https://vid.puffyan.us/api/v1"
      , "https://ytprivate.com/api/v1"
      , "https://ytb.trom.tf/api/v1"
      , "https://invidious.namazso.eu/api/v1"
      , "https://invidious.hub.ne.kr/api/v1" ]
    active_server_index := 0 }

/-- change_server: active_server_index := (i + 1) % servers.len(). -/
def Fetcher.change_server (f : Fetcher) : Fetcher :=
  { f with active_server_index := (f.active_server_index + 1) % f.servers.length }

/-- The cached query string, search_res.0 in the source. -/
def Fetcher.searchQuery (f : Fetcher) : String := f.search_res.1

/-- The cached music batch, search_res.1.music.0 in the source. -/
def Fetcher.musicBatch (f : Fetcher) : List MusicUnit := f.search_res.2.music.1

/-- The backend page cursor, search_res.1.music.1 in the source. -/
def Fetcher.musicCursor (f : Fetcher) : Nat := f.search_res.2.music.2

/-- Write the music (batch, cursor) pair of the search cache, leaving the
cached query and the other categories untouched - the only writes
search_music performs. -/
def Fetcher.setMusic (f : Fetcher) (batch : List MusicUnit) (cursor : Nat) : Fetcher :=
  { f with search_res := (f.search_res.1, { f.search_res.2 with music := (batch, cursor) }) }

/-- The base URL of the currently active server,
servers[active_server_index]. The index is always in bounds (it is only
written by change_server's mod); getD's default is never reached from
reachable states. -/
def Fetcher.activeServer (f : Fetcher) : String :=
  f.servers.getD f.active_server_index ""

/-- send_request from utils.rs lines 65-94: one GET against the active
server; on deserialized success return the value; on a body that fails to
deserialize return Failed; on transport failure rotate and return Retry
when retry_for > 0, else Failed. -/
def send_request {α : Type} (f : Fetcher) (net : String → TransportResult α)
    (path : String) (retry_for : Int) : Except ReturnAction α × Fetcher :=
  match net (f.activeServer ++ path) with
  | TransportResult.ok v => (Except.ok v, f)
  | TransportResult.badBody => (Except.error ReturnAction.Failed, f)
  | TransportResult.netErr =>
      if retry_for > 0 then (Except.error ReturnAction.Retry, f.change_server)
      else (Except.error ReturnAction.Failed, f)

/-- Decimal digit to its character, for rendering integers the way
Rust's Display for unsigned integers does (only applied to values < 10). -/
def digitChar (d : Nat) : Char :=
  match d with
  | 0 => '0'
  | 1 => '1'
  | 2 => '2'
  | 3 => '3'
  | 4 => '4'
  | 5 => '5'
  | 6 => '6'
  | 7 => '7'
  | 8 => '8'
  | _ => '9'

/-- Fuel-driven canonical decimal rendering (most significant digit
first, no leading zeros, no sign), modelling Rust's Display for u64/i32
on nonnegative values. The fuel is an upper bound on the digit count;
callers pass n+1 which always suffices. -/
def toDecAux : Nat → Nat → List Char → List Char
  | 0, _, acc => acc
  | fuel + 1, n, acc =>
      if n < 10 then digitChar n :: acc
      else toDecAux fuel (n / 10) (digitChar (n % 10) :: acc)

/-- Canonical decimal rendering of a natural number. -/
def toDecimal (n : Nat) : List Char := toDecAux (n + 1) n []

/-- Nat rendered as a decimal string (Rust format! of an integer). -/
def decStr (n : Nat) : String := String.mk (toDecimal n)

/-- The trending request path built at utils.rs lines 101-105. -/
def trendingPath : String :=
  "/trending?type=Music&" ++ REGION ++ "&" ++ MUSIC_FIELDS

/-- The search request path built at utils.rs lines 146-152; page is the
already-incremented backend cursor. -/
def searchPath (query : String) (page : Nat) : String :=
  "/search?q=" ++ query ++ "&type=video&" ++ REGION ++ "&page=" ++ decStr page
    ++ "&" ++ MUSIC_FIELDS

instance instDecEqExcept {ε α : Type} [DecidableEq ε] [DecidableEq α] :
    DecidableEq (Except ε α) := fun a b =>
  match a, b with
  | Except.ok x, Except.ok y =>
      if h : x = y then isTrue (by rw [h])
      else isFalse (by intro hh; cases hh; exact h rfl)
  | Except.ok _, Except.error _ => isFalse (by intro hh; cases hh)
  | Except.error _, Except.ok _ => isFalse (by intro hh; cases hh)
  | Except.error x, Except.error y =>
      if h : x = y then isTrue (by rw [h])
      else isFalse (by intro hh; cases hh; exact h rfl)

/-- Result of one get_trending_music call: the returned value, the state
after the call, and how many send_request calls were issued (0 or 1) -
the observable "did a backend fetch happen" of the claims. -/
structure TrendOut where
  result : Except ReturnAction (List MusicUnit)
  state : Fetcher
  fetches : Nat
deriving DecidableEq, Repr

/-- The page-slicing step of get_trending_music (utils.rs lines 117-123)
applied to the populated trending list. -/
def trendingSliceOf (l : List MusicUnit) (page : Nat) :
    Except ReturnAction (List MusicUnit) :=
  let lower_limit := ITEM_PER_PAGE * page
  let upper_limit := min l.length (lower_limit + ITEM_PER_PAGE)
  if lower_limit ≥ upper_limit then Except.error ReturnAction.EOR
  else Except.ok ((l.drop lower_limit).take (upper_limit - lower_limit))

/-- get_trending_music from utils.rs lines 96-124: on an empty cache,
one send_request with retry budget 2; a success populates the cache
(shrink_to_fit does not change the contents); a failure is propagated
unchanged with the cache left empty. The populated list is then sliced. -/
def get_trending_music (f : Fetcher) (net : String → TransportResult (List MusicUnit))
    (page : Nat) : TrendOut :=
  match f.trending_now with
  | none =>
      match send_request f net trendingPath 2 with
      | (Except.ok res, f1) =>
          { result := trendingSliceOf res page
            state := { f1 with trending_now := some res }
            fetches := 1 }
      | (Except.error e, f1) =>
          { result := Except.error e, state := f1, fetches := 1 }
  | some l => { result := trendingSliceOf l page, state := f, fetches := 0 }

/-- Result of one search_music call: returned value, state after the
call, and whether a backend fetch was issued. -/
structure SearchOut where
  result : Except ReturnAction (List MusicUnit)
  state : Fetcher
  fetched : Bool
deriving DecidableEq, Repr

/-- The carry-over computation of search_music (utils.rs lines 131-142):
when the query equals the cached query, the unserved slice of the cached
batch for the requested caller page; empty otherwise. -/
def searchCarry (f : Fetcher) (query : String) (page : Nat) : List MusicUnit :=
  if query = f.search_res.1 then
    let lower_limit := ITEM_PER_PAGE * page
    let upper_limit := min f.search_res.2.music.1.length (lower_limit + ITEM_PER_PAGE)
    if upper_limit > lower_limit then
      (f.search_res.2.music.1.drop lower_limit).take (upper_limit - lower_limit)
    else []
  else []

/-- search_music from utils.rs lines 126-171. If the query equals the
cached query, carry over the unserved slice of the cached batch; if the
carried items do not fill a page, increment the backend cursor, fetch
the backend page at the new cursor with retry budget 1, store the new
batch, and top the carried items up from the front of the new batch;
an empty final result becomes EOR; fetch errors are propagated. -/
def search_music (f : Fetcher) (net : String → TransportResult (List MusicUnit))
    (query : String) (page : Nat) : SearchOut :=
  if (searchCarry f query page).length < ITEM_PER_PAGE then
    match send_request (f.setMusic f.search_res.2.music.1 (f.search_res.2.music.2 + 1))
        net (searchPath query (f.search_res.2.music.2 + 1)) 1 with
    | (Except.ok res, f2) =>
        if (searchCarry f query page
            ++ res.take (min res.length
                (ITEM_PER_PAGE - (searchCarry f query page).length))).isEmpty then
          { result := Except.error ReturnAction.EOR
            state := f2.setMusic res f2.search_res.2.music.2
            fetched := true }
        else
          { result := Except.ok (searchCarry f query page
              ++ res.take (min res.length
                  (ITEM_PER_PAGE - (searchCarry f query page).length)))
            state := f2.setMusic res f2.search_res.2.music.2
            fetched := true }
    | (Except.error e, f2) =>
        { result := Except.error e, state := f2, fetched := true }
  else { result := Except.ok (searchCarry f query page), state := f, fetched := false }

/-- Modelled from the spec: the retry-orchestration loop that the
executor's callers perform is not part of src/fetcher/src/utils.rs (the
spec, section 4.2: "the caller is responsible for re-invoking with
max_retries - 1"). Each round calls send_request with the remaining
budget; a Retry answer consumes one budget unit and re-invokes. Returns
the final result, final state, and the number of rotations performed.
The budget-0 Retry branch is unreachable because send_request never
answers Retry when retry_for is not positive. -/
def retryChain {α : Type} (net : String → TransportResult α) (path : String) :
    Nat → Fetcher → Except ReturnAction α × Fetcher × Nat
  | budget, f =>
      match send_request f net path (Int.ofNat budget) with
      | (Except.ok v, f1) => (Except.ok v, f1, 0)
      | (Except.error ReturnAction.Retry, f1) =>
          match budget with
          | 0 => (Except.error ReturnAction.Retry, f1, 0)
          | b + 1 =>
              let r := retryChain net path b f1
              (r.1, r.2.1, r.2.2 + 1)
      | (Except.error e, f1) => (Except.error e, f1, 0)

/-- A transport oracle on which every request succeeds, with response
body given by the backend function. -/
def netOk (backend : String → List MusicUnit) :
    String → TransportResult (List MusicUnit) :=
  fun u => TransportResult.ok (backend u)

/-- Sequential driver: the concatenation of the pages returned by
search_music for caller pages page, page+1, ... (n pages in total),
stopping at the first error (in particular at the first EndOfResults),
threading the state. -/
def searchRun (net : String → TransportResult (List MusicUnit)) (q : String) :
    Fetcher → Nat → Nat → List MusicUnit
  | _, _, 0 => []
  | f, page, n + 1 =>
      match search_music f net q page with
      | ⟨Except.ok items, f2, _⟩ => items ++ searchRun net q f2 (page + 1) n
      | ⟨Except.error _, _, _⟩ => []

/-- The backend-returned stream: concatenation of the backend batches for
backend page indices c, c+1, ..., c+n-1. -/
def backendPages (g : Nat → List MusicUnit) (c : Nat) : Nat → List MusicUnit
  | 0 => []
  | n + 1 => g c ++ backendPages g (c + 1) n

/-- str::trim - drop leading and trailing whitespace characters. Rust
trims Unicode White_Space; Char.isWhitespace covers the ASCII subset,
which agrees with Rust on every input considered here. -/
def trimChars (s : List Char) : List Char :=
  ((s.dropWhile Char.isWhitespace).reverse.dropWhile Char.isWhitespace).reverse

/-- The optional leading plus sign accepted by u64's FromStr. -/
def stripPlus : List Char → List Char
  | [] => []
  | c :: rest => if c = '+' then rest else c :: rest

/-- Numeric value accumulated over decimal digit characters. -/
def digitsVal (v : Nat) (s : List Char) : Nat :=
  s.foldl (fun a c => 10 * a + (c.toNat - 48)) v

/-- str::parse::<u64>: an optional leading plus, then one or more ASCII
digits, value within u64 range; anything else is Err. -/
def parse_u64 (s : List Char) : Option Nat :=
  if stripPlus s ≠ [] ∧ (stripPlus s).all Char.isDigit then
    if digitsVal 0 (stripPlus s) < 2 ^ 64 then some (digitsVal 0 (stripPlus s))
    else none
  else none

/-- str::split_once: split at the first occurrence of the separator,
none when the separator does not occur. -/
def splitOnce : List Char → Char → Option (List Char × List Char)
  | [], _ => none
  | x :: xs, c =>
      if x = c then some ([], xs)
      else
        match splitOnce xs c with
        | none => none
        | some (a, b) => some (x :: a, b)

namespace ExtendDuration

/-- ExtendDuration::to_string (utils.rs lines 11-20): Duration is
modelled by its whole seconds (as_secs); renders "minutes:seconds" with
both components in canonical decimal (shrink_to_fit has no observable
effect). -/
def to_string (secs : Nat) : String :=
  String.mk (toDecimal (secs / 60) ++ ':' :: toDecimal (secs % 60))

/-- ExtendDuration::from_string (utils.rs lines 23-28): split_once at
the colon (none models the panic of .unwrap() when no colon occurs),
trim and parse both sides as u64 with parse errors defaulting to 0
(unwrap_or_default), and combine as 60*minutes + seconds in u64
arithmetic (mod 2^64 models the wrapping of the release build). -/
def from_string (inp : String) : Option Nat :=
  match splitOnce inp.data ':' with
  | none => none
  | some (a, b) =>
      some ((60 * ((parse_u64 (trimChars a)).getD 0)
        + (parse_u64 (trimChars b)).getD 0) % 2 ^ 64)

end ExtendDuration

/-- States reachable from Fetcher::new by the operations of utils.rs. -/
inductive Reachable : Fetcher → Prop where
  | new : Reachable Fetcher.new
  | chg {f : Fetcher} : Reachable f → Reachable f.change_server
  | send {f : Fetcher} (α : Type) (net : String → TransportResult α)
      (path : String) (r : Int) :
      Reachable f → Reachable (send_request f net path r).2
  | trend {f : Fetcher} (net : String → TransportResult (List MusicUnit))
      (page : Nat) : Reachable f → Reachable (get_trending_music f net page).state
  | search {f : Fetcher} (net : String → TransportResult (List MusicUnit))
      (q : String) (p : Nat) : Reachable f → Reachable (search_music f net q p).state

/-! Helper lemmas about the state effects of the operations. -/

@[simp] lemma setMusic_query (f : Fetcher) (b : List MusicUnit) (c : Nat) :
    (f.setMusic b c).search_res.1 = f.search_res.1 := rfl

@[simp] lemma setMusic_music (f : Fetcher) (b : List MusicUnit) (c : Nat) :
    (f.setMusic b c).search_res.2.music = (b, c) := rfl

@[simp] lemma setMusic_servers (f : Fetcher) (b : List MusicUnit) (c : Nat) :
    (f.setMusic b c).servers = f.servers := rfl

@[simp] lemma setMusic_index (f : Fetcher) (b : List MusicUnit) (c : Nat) :
    (f.setMusic b c).active_server_index = f.active_server_index := rfl

@[simp] lemma setMusic_trending (f : Fetcher) (b : List MusicUnit) (c : Nat) :
    (f.setMusic b c).trending_now = f.trending_now := rfl

@[simp] lemma setMusic_activeServer (f : Fetcher) (b : List MusicUnit) (c : Nat) :
    (f.setMusic b c).activeServer = f.activeServer := rfl

@[simp] lemma change_server_query (f : Fetcher) :
    f.change_server.search_res = f.search_res := rfl

@[simp] lemma change_server_trending (f : Fetcher) :
    f.change_server.trending_now = f.trending_now := rfl

lemma send_request_state {α : Type} (f : Fetcher) (net : String → TransportResult α)
    (path : String) (r : Int) :
    (send_request f net path r).2 = f ∨ (send_request f net path r).2 = f.change_server := by
  unfold send_request
  cases net (f.activeServer ++ path) with
  | ok v => exact Or.inl rfl
  | badBody => exact Or.inl rfl
  | netErr => by_cases h : r > 0 <;> simp [h]

lemma send_request_query {α : Type} (f : Fetcher) (net : String → TransportResult α)
    (path : String) (r : Int) :
    (send_request f net path r).2.search_res = f.search_res := by
  rcases send_request_state f net path r with h | h <;> rw [h] <;> rfl

lemma send_request_trending {α : Type} (f : Fetcher) (net : String → TransportResult α)
    (path : String) (r : Int) :
    (send_request f net path r).2.trending_now = f.trending_now := by
  rcases send_request_state f net path r with h | h <;> rw [h] <;> rfl

@[simp] lemma send_request_netOk (f : Fetcher) (backend : String → List MusicUnit)
    (path : String) (r : Int) :
    send_request f (netOk backend) path r =
      (Except.ok (backend (f.activeServer ++ path)), f) := rfl

lemma take_sub_take {α : Type} (l : List α) {m n : Nat} (h : m ≤ n) :
    (l.take m).Sublist (l.take n) := by
  have hh : l.take m = (l.take n).take m := by
    rw [List.take_take, Nat.min_eq_left h]
  rw [hh]
  exact List.take_sublist _ _

lemma take_min_length {α : Type} (l : List α) (m : Nat) :
    l.take (min l.length m) = l.take m := by
  rw [List.take_eq_take]
  omega

/-! Claim theorems. -/

/-- C5: send_request case analysis - transport success with a
deserializable body returns the value with no state change; a success
whose body fails to deserialize returns Failed with no rotation; a
transport failure with retry_for > 0 rotates the pool exactly once and
returns Retry; a transport failure with retry_for ≤ 0 returns Failed
with no rotation. -/
theorem claim_C5_send_request_cases {α : Type} (f : Fetcher)
    (net : String → TransportResult α) (path : String) (r : Int) :
    (∀ v, net (f.activeServer ++ path) = TransportResult.ok v →
      send_request f net path r = (Except.ok v, f)) ∧
    (net (f.activeServer ++ path) = TransportResult.badBody →
      send_request f net path r = (Except.error ReturnAction.Failed, f)) ∧
    (net (f.activeServer ++ path) = TransportResult.netErr → r > 0 →
      send_request f net path r = (Except.error ReturnAction.Retry, f.change_server)) ∧
    (net (f.activeServer ++ path) = TransportResult.netErr → r ≤ 0 →
      send_request f net path r = (Except.error ReturnAction.Failed, f)) := by
  refine ⟨fun v h => ?_, fun h => ?_, fun h hr => ?_, fun h hr => ?_⟩ <;>
    unfold send_request <;> rw [h]
  · simp [hr]
  · have : ¬ r > 0 := by omega
    simp [this]

/-- C5 witness: instantiation at a netErr transport with budget 1. -/
theorem claim_C5_send_request_cases_witness :
    send_request Fetcher.new
        (fun _ => (TransportResult.netErr : TransportResult (List MusicUnit))) "/x" 1
      = (Except.error ReturnAction.Retry, Fetcher.new.change_server) :=
  (claim_C5_send_request_cases Fetcher.new _ "/x" 1).2.2.1 rfl (by decide)

/-- C4: with retry budget 2 under the spec-modelled caller retry loop,
all transport attempts failing gives exactly 2 server-pool rotations and
a final Failed; otherwise the value of the first successful attempt is
returned (attempts target the successively rotated servers). -/
theorem claim_C4_retry_budget_two {α : Type} (f : Fetcher)
    (net : String → TransportResult α) (path : String) :
    ((∀ u, net u = TransportResult.netErr) →
      retryChain net path 2 f =
        (Except.error ReturnAction.Failed, f.change_server.change_server, 2)) ∧
    (∀ v, net (f.activeServer ++ path) = TransportResult.ok v →
      retryChain net path 2 f = (Except.ok v, f, 0)) ∧
    (∀ v, net (f.activeServer ++ path) = TransportResult.netErr →
      net (f.change_server.activeServer ++ path) = TransportResult.ok v →
      retryChain net path 2 f = (Except.ok v, f.change_server, 1)) ∧
    (∀ v, net (f.activeServer ++ path) = TransportResult.netErr →
      net (f.change_server.activeServer ++ path) = TransportResult.netErr →
      net (f.change_server.change_server.activeServer ++ path) = TransportResult.ok v →
      retryChain net path 2 f =
        (Except.ok v, f.change_server.change_server, 2)) := by
  refine ⟨fun h => ?_, fun v h => ?_, fun v h1 h2 => ?_, fun v h1 h2 h3 => ?_⟩
  · simp [retryChain, send_request, h]
  · simp [retryChain, send_request, h]
  · simp [retryChain, send_request, h1, h2]
  · simp [retryChain, send_request, h1, h2, h3]

/-- C4 witness: every attempt is a transport failure; the chain with
budget 2 performs 2 rotations and fails. -/
theorem claim_C4_retry_budget_two_witness :
    retryChain (fun _ => (TransportResult.netErr : TransportResult (List MusicUnit)))
        trendingPath 2 Fetcher.new =
      (Except.error ReturnAction.Failed,
        Fetcher.new.change_server.change_server, 2) :=
  (claim_C4_retry_budget_two Fetcher.new _ trendingPath).1 (fun _ => rfl)

/-- C6: once the trending cache holds a list l, get_trending_music
returns EndOfResults exactly when ITEM_PER_PAGE * page ≥ l.length
(including the empty-list case), and otherwise returns the slice of l
from ITEM_PER_PAGE * page of length at most ITEM_PER_PAGE. -/
theorem claim_C6_trending_slice (f : Fetcher)
    (net : String → TransportResult (List MusicUnit)) (page : Nat)
    (l : List MusicUnit) (h : f.trending_now = some l) :
    ((get_trending_music f net page).result = Except.error ReturnAction.EOR ↔
      ITEM_PER_PAGE * page ≥ l.length) ∧
    (ITEM_PER_PAGE * page < l.length →
      (get_trending_music f net page).result =
        Except.ok ((l.drop (ITEM_PER_PAGE * page)).take ITEM_PER_PAGE)) := by
  have hres : (get_trending_music f net page).result = trendingSliceOf l page := by
    unfold get_trending_music
    rw [h]
  rw [hres]
  simp only [trendingSliceOf, ITEM_PER_PAGE]
  split <;> rename_i hcond
  · refine ⟨⟨fun _ => ?_, fun _ => rfl⟩, fun hlen => ?_⟩
    · omega
    · exfalso
      omega
  · refine ⟨⟨fun he => ?_, fun hlen => ?_⟩, fun hlen => ?_⟩
    · cases he
    · exfalso
      omega
    · congr 1
      rw [List.take_eq_take, List.length_drop]
      omega

/-- C6 witness: a populated cache with one item; page 1 is EndOfResults
and page 0 is the whole singleton list. -/
theorem claim_C6_trending_slice_witness :
    ((get_trending_music
        { Fetcher.new with trending_now := some [⟨false, "a", "n", "1:1", "p"⟩] }
        (fun _ => TransportResult.netErr) 1).result = Except.error ReturnAction.EOR)
    ∧ ((get_trending_music
        { Fetcher.new with trending_now := some [⟨false, "a", "n", "1:1", "p"⟩] }
        (fun _ => TransportResult.netErr) 0).result =
      Except.ok [⟨false, "a", "n", "1:1", "p"⟩]) :=
  ⟨(claim_C6_trending_slice _ _ 1 _ rfl).1.mpr (by decide),
   ((claim_C6_trending_slice
      { Fetcher.new with trending_now := some [⟨false, "a", "n", "1:1", "p"⟩] }
      (fun _ => TransportResult.netErr) 0 [⟨false, "a", "n", "1:1", "p"⟩] rfl).2
      (by decide)).trans (by decide)⟩

/-! Case analysis of search_music. -/

lemma searchCarry_of_ne {f : Fetcher} {q : String} (p : Nat)
    (h : q ≠ f.search_res.1) : searchCarry f q p = [] := by
  unfold searchCarry
  rw [if_neg h]

@[simp] lemma musicBatch_def (f : Fetcher) : f.musicBatch = f.search_res.2.music.1 := rfl

@[simp] lemma musicCursor_def (f : Fetcher) : f.musicCursor = f.search_res.2.music.2 := rfl

@[simp] lemma searchQuery_def (f : Fetcher) : f.searchQuery = f.search_res.1 := rfl

lemma searchCarry_of_eq {f : Fetcher} {q : String} (p : Nat)
    (h : q = f.search_res.1) :
    searchCarry f q p =
      (f.search_res.2.music.1.drop (ITEM_PER_PAGE * p)).take ITEM_PER_PAGE := by
  unfold searchCarry
  rw [if_pos h]
  by_cases hc :
      min f.search_res.2.music.1.length (ITEM_PER_PAGE * p + ITEM_PER_PAGE)
        > ITEM_PER_PAGE * p
  · rw [if_pos hc, List.take_eq_take, List.length_drop]
    simp only [ITEM_PER_PAGE] at hc ⊢
    omega
  · rw [if_neg hc]
    have hlen : f.search_res.2.music.1.length ≤ ITEM_PER_PAGE * p := by
      simp only [ITEM_PER_PAGE] at hc ⊢
      omega
    rw [List.drop_eq_nil_of_le hlen, List.take_nil]

lemma searchCarry_len {f : Fetcher} {q : String} (p : Nat) :
    (searchCarry f q p).length ≤ ITEM_PER_PAGE := by
  by_cases h : q = f.search_res.1
  · rw [searchCarry_of_eq p h, List.length_take]
    omega
  · rw [searchCarry_of_ne p h]
    simp

/-- When the carried items already fill a page, search_music returns them
with no state change and no backend fetch. -/
lemma search_music_noFetch {f : Fetcher}
    {net : String → TransportResult (List MusicUnit)} {q : String} {p : Nat}
    (h : ¬ (searchCarry f q p).length < ITEM_PER_PAGE) :
    search_music f net q p = ⟨Except.ok (searchCarry f q p), f, false⟩ := by
  unfold search_music
  rw [if_neg h]

/-- send_request unfolded as an equation, for rewriting. -/
lemma send_request_unfold {α : Type} (f : Fetcher) (net : String → TransportResult α)
    (path : String) (retry_for : Int) :
    send_request f net path retry_for =
      match net (f.activeServer ++ path) with
      | TransportResult.ok v => (Except.ok v, f)
      | TransportResult.badBody => (Except.error ReturnAction.Failed, f)
      | TransportResult.netErr =>
          if retry_for > 0 then (Except.error ReturnAction.Retry, f.change_server)
          else (Except.error ReturnAction.Failed, f) := rfl

/-- When the carried items do not fill a page, search_music bumps the
cursor and fetches backend page cursor+1; the three transport outcomes
give the three results below (on success the cached batch is replaced and
the carried items are topped up from the front of the new batch; on
failure the error is passed through over the cursor-bumped state). -/
lemma search_music_fetch {f : Fetcher}
    {net : String → TransportResult (List MusicUnit)} {q : String} {p : Nat}
    (h : (searchCarry f q p).length < ITEM_PER_PAGE) :
    search_music f net q p =
      match net (f.activeServer ++ searchPath q (f.search_res.2.music.2 + 1)) with
      | TransportResult.ok B =>
          if (searchCarry f q p
              ++ B.take (min B.length (ITEM_PER_PAGE - (searchCarry f q p).length))).isEmpty then
            ⟨Except.error ReturnAction.EOR,
              f.setMusic B (f.search_res.2.music.2 + 1), true⟩
          else
            ⟨Except.ok (searchCarry f q p
                ++ B.take (min B.length (ITEM_PER_PAGE - (searchCarry f q p).length))),
              f.setMusic B (f.search_res.2.music.2 + 1), true⟩
      | TransportResult.badBody =>
          ⟨Except.error ReturnAction.Failed,
            f.setMusic f.search_res.2.music.1 (f.search_res.2.music.2 + 1), true⟩
      | TransportResult.netErr =>
          ⟨Except.error ReturnAction.Retry,
            (f.setMusic f.search_res.2.music.1 (f.search_res.2.music.2 + 1)).change_server,
            true⟩ := by
  unfold search_music
  rw [if_pos h, send_request_unfold, setMusic_activeServer]
  cases net (f.activeServer ++ searchPath q (f.search_res.2.music.2 + 1)) with
  | ok B => rfl
  | badBody => rfl
  | netErr => rfl

lemma searchOut_ite_state (c : Prop) [Decidable c]
    (r1 r2 : Except ReturnAction (List MusicUnit)) (st : Fetcher) (b1 b2 : Bool) :
    (if c then (⟨r1, st, b1⟩ : SearchOut) else ⟨r2, st, b2⟩).state = st := by
  split <;> rfl

lemma searchOut_ite_fetched (c : Prop) [Decidable c]
    (r1 r2 : Except ReturnAction (List MusicUnit)) (st : Fetcher) :
    (if c then (⟨r1, st, true⟩ : SearchOut) else ⟨r2, st, true⟩).fetched = true := by
  split <;> rfl

lemma fetch_cond_of_fetched {f : Fetcher}
    {net : String → TransportResult (List MusicUnit)} {q : String} {p : Nat}
    (hf : (search_music f net q p).fetched = true) :
    (searchCarry f q p).length < ITEM_PER_PAGE := by
  by_contra hc
  rw [search_music_noFetch hc] at hf
  cases hf

/-- get_trending_music unfolded as an equation, for rewriting. -/
lemma get_trending_unfold (f : Fetcher)
    (net : String → TransportResult (List MusicUnit)) (page : Nat) :
    get_trending_music f net page =
      match f.trending_now with
      | none =>
          match send_request f net trendingPath 2 with
          | (Except.ok res, f1) =>
              ⟨trendingSliceOf res page, { f1 with trending_now := some res }, 1⟩
          | (Except.error e, f1) => ⟨Except.error e, f1, 1⟩
      | some l => ⟨trendingSliceOf l page, f, 0⟩ := rfl

/-- C8: when a search_music call performs a backend fetch and the fetch
fails, the executor's error is returned unchanged; the backend cursor
ends exactly one above its value before the call (also on success), and
the cached batch is unchanged on failure, so a retry of the same caller
page requests the next backend page. -/
theorem claim_C8_search_failed_fetch (f : Fetcher)
    (net : String → TransportResult (List MusicUnit)) (q : String) (p : Nat)
    (hf : (search_music f net q p).fetched = true) :
    (net (f.activeServer ++ searchPath q (f.musicCursor + 1)) = TransportResult.badBody →
      search_music f net q p =
        ⟨Except.error ReturnAction.Failed,
          f.setMusic f.musicBatch (f.musicCursor + 1), true⟩) ∧
    (net (f.activeServer ++ searchPath q (f.musicCursor + 1)) = TransportResult.netErr →
      search_music f net q p =
        ⟨Except.error ReturnAction.Retry,
          (f.setMusic f.musicBatch (f.musicCursor + 1)).change_server, true⟩) ∧
    (search_music f net q p).state.musicCursor = f.musicCursor + 1 ∧
    ((∀ B, net (f.activeServer ++ searchPath q (f.musicCursor + 1))
        ≠ TransportResult.ok B) →
      (search_music f net q p).state.musicBatch = f.musicBatch) := by
  have hc := fetch_cond_of_fetched hf
  rw [search_music_fetch hc]
  simp only [musicCursor_def, musicBatch_def]
  cases hnet : net (f.activeServer ++ searchPath q (f.search_res.2.music.2 + 1)) with
  | ok B =>
      refine ⟨fun hbad => TransportResult.noConfusion hbad,
        fun hne => TransportResult.noConfusion hne, ?_,
        fun hnone => absurd rfl (hnone B)⟩
      exact congrArg (fun st => st.search_res.2.music.2)
        (searchOut_ite_state
          ((searchCarry f q p
            ++ B.take (min B.length (ITEM_PER_PAGE - (searchCarry f q p).length))).isEmpty
              = true)
          _ _ (f.setMusic B (f.search_res.2.music.2 + 1)) _ _)
  | badBody => exact ⟨fun _ => rfl, fun hne => TransportResult.noConfusion hne, rfl, fun _ => rfl⟩
  | netErr => exact ⟨fun hbad => TransportResult.noConfusion hbad, fun _ => rfl, rfl, fun _ => rfl⟩

/-- C8 witness: a transport failure on the first search of a fresh
fetcher; the Retry is surfaced, the cursor moved from 0 to 1, the batch
is still empty. -/
theorem claim_C8_search_failed_fetch_witness :
    search_music Fetcher.new
        (fun _ => (TransportResult.netErr : TransportResult (List MusicUnit))) "a" 0 =
      ⟨Except.error ReturnAction.Retry,
        (Fetcher.new.setMusic Fetcher.new.musicBatch
          (Fetcher.new.musicCursor + 1)).change_server, true⟩ :=
  (claim_C8_search_failed_fetch Fetcher.new _ "a" 0 (by decide)).2.1 rfl

/-- C7: the trending cache is populated at most once - when it already
holds a list the call issues no backend request and leaves the state
(including the stored list) unchanged; a successful fetch populates it,
and a second call afterwards issues no request (one fetch across the two
calls); a failed fetch propagates the executor's error unchanged and
leaves the cache empty, so the next call re-attempts. -/
theorem claim_C7_trending_fetch_once (f : Fetcher)
    (net : String → TransportResult (List MusicUnit)) (p1 : Nat)
    (l : List MusicUnit) :
    (f.trending_now = some l →
      get_trending_music f net p1 = ⟨trendingSliceOf l p1, f, 0⟩) ∧
    (f.trending_now = none →
      net (f.activeServer ++ trendingPath) = TransportResult.ok l →
      (get_trending_music f net p1).state.trending_now = some l ∧
      (get_trending_music f net p1).fetches = 1 ∧
      (∀ (net2 : String → TransportResult (List MusicUnit)) (p2 : Nat),
        (get_trending_music (get_trending_music f net p1).state net2 p2).fetches = 0 ∧
        (get_trending_music (get_trending_music f net p1).state net2 p2).state
          = (get_trending_music f net p1).state)) ∧
    (f.trending_now = none →
      ∀ e f1, send_request f net trendingPath 2 = (Except.error e, f1) →
        get_trending_music f net p1 = ⟨Except.error e, f1, 1⟩ ∧
        f1.trending_now = none) := by
  refine ⟨fun h => ?_, fun h hok => ?_, fun h e f1 hsr => ?_⟩
  · rw [get_trending_unfold, h]
  · rw [get_trending_unfold, h, send_request_unfold, hok]
    exact ⟨rfl, rfl, fun net2 p2 => ⟨rfl, rfl⟩⟩
  · constructor
    · rw [get_trending_unfold, h, hsr]
    · have h2 : (send_request f net trendingPath 2).2.trending_now = f.trending_now :=
        send_request_trending f net trendingPath 2
      rw [hsr] at h2
      rw [h2, h]

/-- C7 witness: fresh fetcher, successful fetch of a singleton trending
list; the second call issues no backend request. -/
theorem claim_C7_trending_fetch_once_witness :
    (get_trending_music Fetcher.new
        (fun _ => TransportResult.ok [⟨false, "a", "n", "1:1", "p"⟩]) 0).fetches = 1 ∧
    (get_trending_music
        (get_trending_music Fetcher.new
          (fun _ => TransportResult.ok [⟨false, "a", "n", "1:1", "p"⟩]) 0).state
        (fun _ => TransportResult.netErr) 1).fetches = 0 :=
  ⟨((claim_C7_trending_fetch_once Fetcher.new _ 0 [⟨false, "a", "n", "1:1", "p"⟩]).2.1
      rfl rfl).2.1,
   (((claim_C7_trending_fetch_once Fetcher.new _ 0 [⟨false, "a", "n", "1:1", "p"⟩]).2.1
      rfl rfl).2.2 (fun _ => TransportResult.netErr) 1).1⟩

/-- Behaviour of search_music when the query differs from the cached
query: no carried items, a fetch happens, the cursor is bumped by one,
and on success the cached batch is replaced by the response whose
at-most-ITEM_PER_PAGE front is returned (EOR when the response is
empty). -/
lemma search_music_newquery {f : Fetcher}
    {net : String → TransportResult (List MusicUnit)} {q : String} {p : Nat}
    (hne : q ≠ f.search_res.1) :
    searchCarry f q p = [] ∧
    (search_music f net q p).fetched = true ∧
    (search_music f net q p).state.search_res.2.music.2 = f.search_res.2.music.2 + 1 ∧
    (∀ B, net (f.activeServer ++ searchPath q (f.search_res.2.music.2 + 1))
        = TransportResult.ok B →
      (search_music f net q p).state.search_res.2.music.1 = B ∧
      (B = [] → (search_music f net q p).result = Except.error ReturnAction.EOR) ∧
      (B ≠ [] → (search_music f net q p).result = Except.ok (B.take ITEM_PER_PAGE))) := by
  have hc : searchCarry f q p = [] := searchCarry_of_ne p hne
  have hlen : (searchCarry f q p).length < ITEM_PER_PAGE := by
    rw [hc]
    show 0 < ITEM_PER_PAGE
    decide
  rw [search_music_fetch hlen]
  refine ⟨hc, ?_, ?_, ?_⟩
  · cases net (f.activeServer ++ searchPath q (f.search_res.2.music.2 + 1)) with
    | ok B =>
        exact searchOut_ite_fetched
          ((searchCarry f q p
            ++ B.take (min B.length (ITEM_PER_PAGE - (searchCarry f q p).length))).isEmpty
              = true) _ _ (f.setMusic B (f.search_res.2.music.2 + 1))
    | badBody => rfl
    | netErr => rfl
  · cases net (f.activeServer ++ searchPath q (f.search_res.2.music.2 + 1)) with
    | ok B =>
        exact congrArg (fun st => st.search_res.2.music.2) (searchOut_ite_state
          ((searchCarry f q p
            ++ B.take (min B.length (ITEM_PER_PAGE - (searchCarry f q p).length))).isEmpty
              = true) _ _ (f.setMusic B (f.search_res.2.music.2 + 1)) _ _)
    | badBody => rfl
    | netErr => rfl
  · intro B hB
    cases hnet : net (f.activeServer ++ searchPath q (f.search_res.2.music.2 + 1)) with
    | ok B2 =>
        have hBB : B2 = B := by
          rw [hnet] at hB
          cases hB
          rfl
        subst hBB
        simp only [hc, List.nil_append, List.length_nil, Nat.sub_zero, take_min_length]
        refine ⟨?_, fun hBnil => ?_, fun hBnz => ?_⟩
        · exact congrArg (fun st => st.search_res.2.music.1) (searchOut_ite_state
            ((B2.take ITEM_PER_PAGE).isEmpty = true) _ _
            (f.setMusic B2 (f.search_res.2.music.2 + 1)) _ _)
        · subst hBnil
          rfl
        · cases B2 with
          | nil => exact absurd rfl hBnz
          | cons x t => rfl
    | badBody =>
        rw [hnet] at hB
        exact TransportResult.noConfusion hB
    | netErr =>
        rw [hnet] at hB
        exact TransportResult.noConfusion hB

lemma search_music_query (f : Fetcher)
    (net : String → TransportResult (List MusicUnit)) (q : String) (p : Nat) :
    (search_music f net q p).state.search_res.1 = f.search_res.1 := by
  by_cases hc : (searchCarry f q p).length < ITEM_PER_PAGE
  · rw [search_music_fetch hc]
    cases net (f.activeServer ++ searchPath q (f.search_res.2.music.2 + 1)) with
    | ok B =>
        exact congrArg (fun st => st.search_res.1) (searchOut_ite_state
          ((searchCarry f q p
            ++ B.take (min B.length (ITEM_PER_PAGE - (searchCarry f q p).length))).isEmpty
              = true) _ _ (f.setMusic B (f.search_res.2.music.2 + 1)) _ _)
    | badBody => rfl
    | netErr => rfl
  · rw [search_music_noFetch hc]

lemma get_trending_query (f : Fetcher)
    (net : String → TransportResult (List MusicUnit)) (p : Nat) :
    (get_trending_music f net p).state.search_res = f.search_res := by
  rw [get_trending_unfold]
  cases htr : f.trending_now with
  | some l => rfl
  | none =>
      have hq := send_request_query f net trendingPath 2
      rcases hsr : send_request f net trendingPath 2 with ⟨r, f1⟩
      rw [hsr] at hq
      cases r with
      | ok res => exact hq
      | error e => exact hq

/-- In every state reachable from Fetcher::new, the cached query string
is still the empty string: no operation of utils.rs ever writes it. -/
lemma reachable_searchQuery {f : Fetcher} (h : Reachable f) :
    f.search_res.1 = "" := by
  induction h with
  | new => rfl
  | chg _ ih => exact ih
  | send α net path r _ ih =>
      exact (congrArg Prod.fst (send_request_query _ net path r)).trans ih
  | trend net page _ ih =>
      exact (congrArg Prod.fst (get_trending_query _ net page)).trans ih
  | search net q p _ ih =>
      exact (search_music_query _ net q p).trans ih

/-- C2: the cached query field (search_res.0) is never written - every
reachable state still carries the empty string set in Fetcher::new -
so for every non-empty query the carry-over branch supplies no items,
the call performs a backend fetch, and any successfully returned page is
the at-most-ITEM_PER_PAGE front of the newly fetched batch. -/
theorem claim_C2_query_never_written :
    (∀ f : Fetcher, Reachable f → f.searchQuery = "") ∧
    (∀ (f : Fetcher) (net : String → TransportResult (List MusicUnit))
        (q : String) (p : Nat), Reachable f → q ≠ "" →
      searchCarry f q p = [] ∧
      (search_music f net q p).fetched = true ∧
      (∀ B, net (f.activeServer ++ searchPath q (f.musicCursor + 1))
          = TransportResult.ok B →
        ∀ v, (search_music f net q p).result = Except.ok v →
          v = B.take ITEM_PER_PAGE)) := by
  refine ⟨fun f h => reachable_searchQuery h, fun f net q p h hne => ?_⟩
  have hne2 : q ≠ f.search_res.1 := by
    rw [reachable_searchQuery h]
    exact hne
  obtain ⟨h1, h2, _, h4⟩ := @search_music_newquery f net q p hne2
  refine ⟨h1, h2, fun B hB v hv => ?_⟩
  obtain ⟨_, hnil, hcons⟩ := h4 B hB
  by_cases hBnil : B = []
  · rw [hnil hBnil] at hv
    cases hv
  · rw [hcons hBnil] at hv
    cases hv
    rfl

/-- C2 witness: the fresh state is reachable with empty cached query; a
non-empty query on it triggers a fetch whose successful one-item batch
is returned in full. -/
theorem claim_C2_query_never_written_witness :
    Fetcher.new.searchQuery = "" ∧
    (search_music Fetcher.new
      (netOk (fun _ => [⟨false, "a", "n", "1:1", "p"⟩])) "q" 0).fetched = true :=
  ⟨claim_C2_query_never_written.1 Fetcher.new Reachable.new,
   (claim_C2_query_never_written.2 Fetcher.new
      (netOk (fun _ => [⟨false, "a", "n", "1:1", "p"⟩])) "q" 0 Reachable.new
      (by decide)).2.1⟩

/-- C1 counterexample: from a fresh fetcher, searching one query and
then a different query leaves the backend page cursor at 2, not reset
to 1, so the second call does not restart the backend cursor for the
new query. -/
theorem claim_C1_counterexample :
    (search_music (search_music Fetcher.new (netOk (fun _ => [])) "first" 0).state
        (netOk (fun _ => [])) "second" 0).state.musicCursor = 2 ∧
    ¬ (search_music (search_music Fetcher.new (netOk (fun _ => [])) "first" 0).state
        (netOk (fun _ => [])) "second" 0).state.musicCursor = 1 := by
  constructor
  · rfl
  · intro h
    cases h

/-- C1 (amended): switching to a query different from the cached one
starts with an empty carried item set and returns a first page drawn
only from the newly fetched batch (never from the previous query's
cached batch), but the backend page cursor is not reset to 1: it is
incremented by exactly 1 from its previous value and the fetch requests
that cursor. -/
theorem claim_C1_new_query_fresh (f : Fetcher)
    (net : String → TransportResult (List MusicUnit)) (q : String) (p : Nat)
    (hne : q ≠ f.searchQuery) :
    searchCarry f q p = [] ∧
    (search_music f net q p).fetched = true ∧
    (search_music f net q p).state.musicCursor = f.musicCursor + 1 ∧
    (∀ B, net (f.activeServer ++ searchPath q (f.musicCursor + 1))
        = TransportResult.ok B →
      (search_music f net q p).state.musicBatch = B ∧
      (B = [] → (search_music f net q p).result = Except.error ReturnAction.EOR) ∧
      (B ≠ [] → (search_music f net q p).result = Except.ok (B.take ITEM_PER_PAGE))) := by
  simp only [searchQuery_def] at hne
  simp only [musicCursor_def, musicBatch_def]
  exact search_music_newquery hne

/-- C1 witness: first search for a new query on a fresh fetcher - empty
carry, a fetch, cursor 0 to 1, and the one-item batch returned. -/
theorem claim_C1_new_query_fresh_witness :
    searchCarry Fetcher.new "q" 0 = [] ∧
    (search_music Fetcher.new
      (netOk (fun _ => [⟨false, "a", "n", "1:1", "p"⟩])) "q" 0).state.musicCursor =
        Fetcher.new.musicCursor + 1 :=
  ⟨(claim_C1_new_query_fresh Fetcher.new
      (netOk (fun _ => [⟨false, "a", "n", "1:1", "p"⟩])) "q" 0 (by decide)).1,
   (claim_C1_new_query_fresh Fetcher.new
      (netOk (fun _ => [⟨false, "a", "n", "1:1", "p"⟩])) "q" 0 (by decide)).2.2.1⟩

@[simp] lemma setMusic_batch1 (f : Fetcher) (b : List MusicUnit) (c : Nat) :
    (f.setMusic b c).search_res.2.music.1 = b := rfl

@[simp] lemma setMusic_cursor1 (f : Fetcher) (b : List MusicUnit) (c : Nat) :
    (f.setMusic b c).search_res.2.music.2 = c := rfl

lemma searchRun_succ (net : String → TransportResult (List MusicUnit))
    (q : String) (f : Fetcher) (p n : Nat) :
    searchRun net q f p (n + 1) =
      match search_music f net q p with
      | ⟨Except.ok items, f2, _⟩ => items ++ searchRun net q f2 (p + 1) n
      | ⟨Except.error _, _, _⟩ => [] := rfl

lemma searchRun_succ_ok {net : String → TransportResult (List MusicUnit)}
    {q : String} {f : Fetcher} {p : Nat} (n : Nat) {items : List MusicUnit}
    {f2 : Fetcher} {b : Bool}
    (h : search_music f net q p = ⟨Except.ok items, f2, b⟩) :
    searchRun net q f p (n + 1) = items ++ searchRun net q f2 (p + 1) n := by
  rw [searchRun_succ, h]

lemma searchRun_succ_err {net : String → TransportResult (List MusicUnit)}
    {q : String} {f : Fetcher} {p : Nat} (n : Nat) {e : ReturnAction}
    {f2 : Fetcher} {b : Bool}
    (h : search_music f net q p = ⟨Except.error e, f2, b⟩) :
    searchRun net q f p (n + 1) = [] := by
  rw [searchRun_succ, h]

lemma search_music_fetch_netOk {f : Fetcher} {g : String → List MusicUnit}
    {q : String} {p : Nat}
    (hc : (searchCarry f q p).length < ITEM_PER_PAGE) :
    search_music f (netOk g) q p =
      if (searchCarry f q p
          ++ (g (f.activeServer ++ searchPath q (f.search_res.2.music.2 + 1))).take
            (min (g (f.activeServer ++ searchPath q (f.search_res.2.music.2 + 1))).length
              (ITEM_PER_PAGE - (searchCarry f q p).length))).isEmpty = true then
        ⟨Except.error ReturnAction.EOR,
          f.setMusic (g (f.activeServer ++ searchPath q (f.search_res.2.music.2 + 1)))
            (f.search_res.2.music.2 + 1), true⟩
      else
        ⟨Except.ok (searchCarry f q p
            ++ (g (f.activeServer ++ searchPath q (f.search_res.2.music.2 + 1))).take
              (min (g (f.activeServer ++ searchPath q (f.search_res.2.music.2 + 1))).length
                (ITEM_PER_PAGE - (searchCarry f q p).length))),
          f.setMusic (g (f.activeServer ++ searchPath q (f.search_res.2.music.2 + 1)))
            (f.search_res.2.music.2 + 1), true⟩ := by
  rw [search_music_fetch hc]
  rfl

lemma searchCarry_sublist (f : Fetcher) (q : String) (p : Nat) :
    (searchCarry f q p).Sublist (f.search_res.2.music.1.drop (ITEM_PER_PAGE * p)) := by
  by_cases h : q = f.search_res.1
  · rw [searchCarry_of_eq p h]
    exact List.take_sublist _ _
  · rw [searchCarry_of_ne p h]
    exact List.nil_sublist _

lemma backendPages_succ (g : Nat → List MusicUnit) (c n : Nat) :
    backendPages g c (n + 1) = g c ++ backendPages g (c + 1) n := rfl

lemma backendPages_concat (g : Nat → List MusicUnit) :
    ∀ (n c : Nat), backendPages g c (n + 1) = backendPages g c n ++ g (c + n) := by
  intro n
  induction n with
  | zero =>
      intro c
      simp [backendPages]
  | succ m ihm =>
      intro c
      rw [backendPages_succ, ihm (c + 1), backendPages_succ, List.append_assoc]
      have hidx : c + 1 + m = c + (m + 1) := by omega
      rw [hidx]

/-- Main pagination invariant: from any state, the concatenation of the
pages served by successive search_music calls (pages p, p+1, ...) under
an always-successful transport is a sublist of the not-yet-served part
of the cached batch followed by the backend batches fetched at cursors
cursor+1, cursor+2, ... in backend order. -/
lemma searchRun_sublist (g : String → List MusicUnit) (q : String) (N : Nat) :
    ∀ (f : Fetcher) (p : Nat),
      (searchRun (netOk g) q f p N).Sublist
        (f.search_res.2.music.1.drop (ITEM_PER_PAGE * p)
          ++ backendPages (fun k => g (f.activeServer ++ searchPath q k))
              (f.search_res.2.music.2 + 1) N) := by
  induction N with
  | zero =>
      intro f p
      exact List.nil_sublist _
  | succ n ih =>
      intro f p
      by_cases hc : (searchCarry f q p).length < ITEM_PER_PAGE
      · -- a backend fetch happens
        by_cases hemp : (searchCarry f q p
            ++ (g (f.activeServer ++ searchPath q (f.search_res.2.music.2 + 1))).take
              (min (g (f.activeServer ++ searchPath q (f.search_res.2.music.2 + 1))).length
                (ITEM_PER_PAGE - (searchCarry f q p).length))).isEmpty = true
        · have hsm : search_music f (netOk g) q p =
              ⟨Except.error ReturnAction.EOR,
                f.setMusic (g (f.activeServer ++ searchPath q (f.search_res.2.music.2 + 1)))
                  (f.search_res.2.music.2 + 1), true⟩ := by
            rw [search_music_fetch_netOk hc, if_pos hemp]
          rw [searchRun_succ_err n hsm]
          exact List.nil_sublist _
        · have hsm : search_music f (netOk g) q p =
              ⟨Except.ok (searchCarry f q p
                  ++ (g (f.activeServer ++ searchPath q (f.search_res.2.music.2 + 1))).take
                    (min (g (f.activeServer ++ searchPath q (f.search_res.2.music.2 + 1))).length
                      (ITEM_PER_PAGE - (searchCarry f q p).length))),
                f.setMusic (g (f.activeServer ++ searchPath q (f.search_res.2.music.2 + 1)))
                  (f.search_res.2.music.2 + 1), true⟩ := by
            rw [search_music_fetch_netOk hc, if_neg hemp]
          rw [searchRun_succ_ok n hsm, take_min_length, backendPages_succ]
          have hrest := ih (f.setMusic
              (g (f.activeServer ++ searchPath q (f.search_res.2.music.2 + 1)))
              (f.search_res.2.music.2 + 1)) (p + 1)
          simp only [setMusic_batch1, setMusic_cursor1, setMusic_activeServer] at hrest
          have hkle : ITEM_PER_PAGE - (searchCarry f q p).length
              ≤ ITEM_PER_PAGE * (p + 1) := by
            simp only [ITEM_PER_PAGE]
            omega
          have h1 := take_sub_take
            (g (f.activeServer ++ searchPath q (f.search_res.2.music.2 + 1))) hkle
          have h2 := List.Sublist.append h1 hrest
          rw [← List.append_assoc, List.take_append_drop] at h2
          have h3 := List.Sublist.append (searchCarry_sublist f q p) h2
          rw [← List.append_assoc] at h3
          exact h3
      · -- the carried items fill the page: no fetch, state unchanged
        have hq : q = f.search_res.1 := by
          by_contra hq
          rw [searchCarry_of_ne p hq] at hc
          exact hc (by decide)
        have hsm := @search_music_noFetch f (netOk g) q p hc
        rw [searchRun_succ_ok n hsm, searchCarry_of_eq p hq]
        have hrest := ih f (p + 1)
        have hmul : ITEM_PER_PAGE * (p + 1) = ITEM_PER_PAGE * p + ITEM_PER_PAGE := by
          ring
        rw [hmul, ← List.drop_drop ITEM_PER_PAGE (ITEM_PER_PAGE * p)
          f.search_res.2.music.1] at hrest
        have hmono : (backendPages
            (fun k => g (f.activeServer ++ searchPath q k))
            (f.search_res.2.music.2 + 1) n).Sublist
            (backendPages (fun k => g (f.activeServer ++ searchPath q k))
              (f.search_res.2.music.2 + 1) (n + 1)) := by
          rw [backendPages_concat]
          exact List.sublist_append_left _ _
        have hrest2 := hrest.trans (List.Sublist.append (List.Sublist.refl _) hmono)
        have hfinal := List.Sublist.append
          (List.Sublist.refl
            ((f.search_res.2.music.1.drop (ITEM_PER_PAGE * p)).take ITEM_PER_PAGE))
          hrest2
        rw [← List.append_assoc, List.take_append_drop] at hfinal
        exact hfinal

/-- C3: for a fixed query, with every backend response successful, the
concatenation of the pages returned by search_music for caller pages
0, 1, 2, ... (stopping at the first EndOfResults) is a sublist of the
backend-returned stream (the concatenation of the batches for backend
pages 1, 2, ...), hence it preserves backend order; and whenever the
backend stream has no duplicate items the concatenation has none. -/
theorem claim_C3_search_pagination (g : String → List MusicUnit)
    (q : String) (N : Nat) :
    (searchRun (netOk g) q Fetcher.new 0 N).Sublist
      (backendPages (fun k => g (Fetcher.new.activeServer ++ searchPath q k)) 1 N) ∧
    ((backendPages (fun k => g (Fetcher.new.activeServer ++ searchPath q k)) 1 N).Nodup →
      (searchRun (netOk g) q Fetcher.new 0 N).Nodup) := by
  have h := searchRun_sublist g q N Fetcher.new 0
  have hb : Fetcher.new.search_res.2.music.1 = [] := rfl
  rw [hb, List.drop_nil, List.nil_append,
    show Fetcher.new.search_res.2.music.2 + 1 = 1 from rfl] at h
  exact ⟨h, fun hnd => h.nodup hnd⟩

/-- C3 witness: two backend pages of one distinct item each; the
concatenation of the served pages is duplicate-free and in backend
order. -/
theorem claim_C3_search_pagination_witness :
    (searchRun (netOk (fun u =>
        if u = Fetcher.new.activeServer ++ searchPath "a" 1
        then [⟨false, "a1", "n1", "1:1", "p1"⟩]
        else [⟨false, "a2", "n2", "2:2", "p2"⟩])) "a" Fetcher.new 0 2).Nodup :=
  (claim_C3_search_pagination _ "a" 2).2 (by decide)

/-! Duration codec lemmas. -/

lemma digitChar_isDigit (d : Nat) : (digitChar d).isDigit = true := by
  unfold digitChar
  split <;> decide

lemma digitChar_not_ws (d : Nat) : (digitChar d).isWhitespace = false := by
  unfold digitChar
  split <;> decide

lemma digitChar_ne_plus (d : Nat) : digitChar d ≠ '+' := by
  unfold digitChar
  split <;> decide

lemma digitChar_ne_colon (d : Nat) : digitChar d ≠ ':' := by
  unfold digitChar
  split <;> decide

lemma digitChar_val {d : Nat} (h : d < 10) : (digitChar d).toNat - 48 = d := by
  interval_cases d <;> decide

lemma toDecAux_acc (fuel : Nat) :
    ∀ (n : Nat) (acc : List Char),
      toDecAux fuel n acc = toDecAux fuel n [] ++ acc := by
  induction fuel with
  | zero =>
      intro n acc
      rfl
  | succ fu ih =>
      intro n acc
      by_cases h : n < 10
      · simp [toDecAux, h]
      · rw [show toDecAux (fu + 1) n acc
            = toDecAux fu (n / 10) (digitChar (n % 10) :: acc) by simp [toDecAux, h],
          show toDecAux (fu + 1) n [] = toDecAux fu (n / 10) [digitChar (n % 10)] by
            simp [toDecAux, h],
          ih (n / 10) (digitChar (n % 10) :: acc),
          ih (n / 10) [digitChar (n % 10)], List.append_assoc]
        rfl

lemma toDecAux_mem (fuel : Nat) :
    ∀ (n : Nat) (acc : List Char) (c : Char), c ∈ toDecAux fuel n acc →
      (∃ d, d < 10 ∧ c = digitChar d) ∨ c ∈ acc := by
  induction fuel with
  | zero =>
      intro n acc c hc
      exact Or.inr hc
  | succ fu ih =>
      intro n acc c hc
      by_cases h : n < 10
      · rw [show toDecAux (fu + 1) n acc = digitChar n :: acc by simp [toDecAux, h]] at hc
        rcases List.mem_cons.mp hc with h1 | h1
        · exact Or.inl ⟨n, h, h1⟩
        · exact Or.inr h1
      · rw [show toDecAux (fu + 1) n acc
            = toDecAux fu (n / 10) (digitChar (n % 10) :: acc) by simp [toDecAux, h]] at hc
        rcases ih (n / 10) (digitChar (n % 10) :: acc) c hc with h1 | h1
        · exact Or.inl h1
        · rcases List.mem_cons.mp h1 with h2 | h2
          · exact Or.inl ⟨n % 10, Nat.mod_lt n (by omega), h2⟩
          · exact Or.inr h2

lemma toDecAux_len_ge (fuel : Nat) :
    ∀ (n : Nat) (acc : List Char), acc.length ≤ (toDecAux fuel n acc).length := by
  induction fuel with
  | zero =>
      intro n acc
      exact Nat.le_refl _
  | succ fu ih =>
      intro n acc
      by_cases h : n < 10
      · rw [show toDecAux (fu + 1) n acc = digitChar n :: acc by simp [toDecAux, h]]
        exact Nat.le_succ _
      · rw [show toDecAux (fu + 1) n acc
            = toDecAux fu (n / 10) (digitChar (n % 10) :: acc) by simp [toDecAux, h]]
        calc acc.length ≤ (digitChar (n % 10) :: acc).length := Nat.le_succ _
          _ ≤ _ := ih (n / 10) _

lemma toDecimal_ne_nil (n : Nat) : toDecimal n ≠ [] := by
  unfold toDecimal
  by_cases h : n < 10
  · rw [show toDecAux (n + 1) n [] = digitChar n :: [] by
      cases n <;> simp [toDecAux, h]]
    exact List.cons_ne_nil _ _
  · intro habs
    have h1 := toDecAux_len_ge n (n / 10) [digitChar (n % 10)]
    have h2 : toDecAux (n + 1) n []
        = toDecAux n (n / 10) (digitChar (n % 10) :: []) := by
      simp [toDecAux, h]
    rw [h2] at habs
    rw [habs] at h1
    simp at h1

lemma digitsVal_append (v : Nat) (xs ys : List Char) :
    digitsVal v (xs ++ ys) = digitsVal (digitsVal v xs) ys :=
  List.foldl_append _ _ _ _

lemma digitsVal_single (v : Nat) (c : Char) :
    digitsVal v [c] = 10 * v + (c.toNat - 48) := rfl

lemma toDecAux_foldl (fuel : Nat) :
    ∀ (n v : Nat), n < 10 ^ fuel →
      digitsVal v (toDecAux fuel n [])
        = v * 10 ^ (toDecAux fuel n []).length + n := by
  induction fuel with
  | zero =>
      intro n v h
      norm_num at h
      subst h
      show v = v * 10 ^ (0 : Nat) + 0
      simp
  | succ fu ih =>
      intro n v h
      by_cases hlt : n < 10
      · rw [show toDecAux (fu + 1) n [] = [digitChar n] by simp [toDecAux, hlt],
          digitsVal_single, digitChar_val hlt]
        simp
        ring
      · have hdiv : n / 10 < 10 ^ fu := by
          rw [Nat.div_lt_iff_lt_mul (by norm_num : 0 < 10)]
          calc n < 10 ^ (fu + 1) := h
            _ = 10 ^ fu * 10 := by rw [pow_succ]
        rw [show toDecAux (fu + 1) n [] = toDecAux fu (n / 10) [digitChar (n % 10)] by
            simp [toDecAux, hlt],
          toDecAux_acc fu (n / 10) [digitChar (n % 10)],
          digitsVal_append, digitsVal_single, ih (n / 10) v hdiv,
          digitChar_val (Nat.mod_lt n (by omega)), List.length_append]
        have hmod : 10 * (n / 10) + n % 10 = n := Nat.div_add_mod n 10
        calc 10 * (v * 10 ^ (toDecAux fu (n / 10) []).length + n / 10) + n % 10
            = v * 10 ^ ((toDecAux fu (n / 10) []).length + [digitChar (n % 10)].length)
                + (10 * (n / 10) + n % 10) := by
              rw [List.length_singleton, pow_succ]
              ring
          _ = _ := by rw [hmod]

lemma toDecimal_val (n : Nat) : digitsVal 0 (toDecimal n) = n := by
  have hfuel : n < 10 ^ (n + 1) :=
    lt_of_lt_of_le (Nat.lt_pow_self (by norm_num) n)
      (Nat.pow_le_pow_right (by norm_num) (Nat.le_succ n))
  have h := toDecAux_foldl (n + 1) n 0 hfuel
  unfold toDecimal
  rw [h]
  simp

lemma toDecimal_mem {n : Nat} {c : Char} (hc : c ∈ toDecimal n) :
    ∃ d, d < 10 ∧ c = digitChar d := by
  rcases toDecAux_mem (n + 1) n [] c hc with h1 | h1
  · exact h1
  · exact absurd h1 (List.not_mem_nil c)

lemma parse_toDecimal {n : Nat} (h : n < 2 ^ 64) :
    parse_u64 (toDecimal n) = some n := by
  have hne := toDecimal_ne_nil n
  have hstrip : stripPlus (toDecimal n) = toDecimal n := by
    cases hl : toDecimal n with
    | nil => exact absurd hl hne
    | cons c rest =>
        have hcm : c ∈ toDecimal n := by
          rw [hl]
          exact List.mem_cons_self _ _
        rcases toDecimal_mem hcm with ⟨d, _, hcd⟩
        show (if c = '+' then rest else c :: rest) = c :: rest
        rw [if_neg (by rw [hcd]; exact digitChar_ne_plus d)]
  have hall : (toDecimal n).all Char.isDigit = true := by
    rw [List.all_eq_true]
    intro c hc
    rcases toDecimal_mem hc with ⟨d, _, hcd⟩
    rw [hcd]
    exact digitChar_isDigit d
  unfold parse_u64
  rw [hstrip, if_pos ⟨hne, hall⟩, toDecimal_val, if_pos h]

lemma dropWhile_not (p : Char → Bool) (l : List Char)
    (h : ∀ c ∈ l, p c = false) : l.dropWhile p = l := by
  cases l with
  | nil => rfl
  | cons x t =>
      rw [List.dropWhile_cons, if_neg]
      rw [h x (List.mem_cons_self _ _)]
      simp

lemma trimChars_of_not_ws (l : List Char)
    (h : ∀ c ∈ l, c.isWhitespace = false) : trimChars l = l := by
  unfold trimChars
  rw [dropWhile_not Char.isWhitespace l h,
    dropWhile_not Char.isWhitespace l.reverse
      (fun c hc => h c (List.mem_reverse.mp hc)),
    List.reverse_reverse]

lemma trim_toDecimal (n : Nat) : trimChars (toDecimal n) = toDecimal n := by
  apply trimChars_of_not_ws
  intro c hc
  rcases toDecimal_mem hc with ⟨d, _, hcd⟩
  rw [hcd]
  exact digitChar_not_ws d

lemma splitOnce_of_not_mem {c : Char} :
    ∀ (xs ys : List Char), c ∉ xs →
      splitOnce (xs ++ c :: ys) c = some (xs, ys) := by
  intro xs
  induction xs with
  | nil =>
      intro ys _
      show splitOnce (c :: ys) c = _
      unfold splitOnce
      rw [if_pos rfl]
  | cons x t ihx =>
      intro ys h
      have hxc : ¬ x = c := by
        intro he
        exact h (by rw [he]; exact List.mem_cons_self _ _)
      show splitOnce (x :: (t ++ c :: ys)) c = _
      unfold splitOnce
      rw [if_neg hxc, ihx ys (fun hm => h (List.mem_cons_of_mem _ hm))]

lemma splitOnce_eq_none_of : ∀ (l : List Char) (c : Char), c ∉ l →
    splitOnce l c = none := by
  intro l
  induction l with
  | nil =>
      intro c _
      rfl
  | cons x t ihl =>
      intro c h
      have hxc : ¬ x = c := fun he => h (by rw [he]; exact List.mem_cons_self _ _)
      unfold splitOnce
      rw [if_neg hxc, ihl c (fun hm => h (List.mem_cons_of_mem _ hm))]

lemma splitOnce_ne_none_of : ∀ (l : List Char) (c : Char), c ∈ l →
    splitOnce l c ≠ none := by
  intro l
  induction l with
  | nil =>
      intro c h
      exact absurd h (List.not_mem_nil c)
  | cons x t ihl =>
      intro c h
      unfold splitOnce
      by_cases hxc : x = c
      · rw [if_pos hxc]
        intro habs
        exact Option.noConfusion habs
      · rw [if_neg hxc]
        have hct : c ∈ t := by
          rcases List.mem_cons.mp h with h1 | h1
          · exact absurd h1.symm hxc
          · exact h1
        cases hsp : splitOnce t c with
        | none => exact absurd hsp (ihl c hct)
        | some pr =>
            intro habs
            exact Option.noConfusion habs

/-- C10: from_string is partial - the split_once unwrap panics (modelled
by none) exactly on inputs with no ':' separator; every input containing
at least one ':' yields a value (the numeric parses cannot panic, they
default to 0). -/
theorem claim_C10_from_string_needs_colon (inp : String) :
    (ExtendDuration.from_string inp = none ↔ ¬ ':' ∈ inp.data) ∧
    (':' ∈ inp.data → ∃ v, ExtendDuration.from_string inp = some v) := by
  unfold ExtendDuration.from_string
  cases hsp : splitOnce inp.data ':' with
  | none =>
      refine ⟨⟨fun _ hm => splitOnce_ne_none_of _ _ hm hsp, fun _ => rfl⟩,
        fun hm => absurd hsp (splitOnce_ne_none_of _ _ hm)⟩
  | some pr =>
      rcases pr with ⟨a, b⟩
      refine ⟨⟨fun habs => Option.noConfusion habs, fun hnm => ?_⟩, fun _ => ⟨_, rfl⟩⟩
      have hnone := splitOnce_eq_none_of inp.data ':' hnm
      rw [hsp] at hnone
      exact Option.noConfusion hnone

/-- C10 witness: an input without a colon panics; an input with a colon
returns a value. -/
theorem claim_C10_from_string_needs_colon_witness :
    ExtendDuration.from_string "no colon" = none ∧
    ∃ v, ExtendDuration.from_string "4:31" = some v :=
  ⟨(claim_C10_from_string_needs_colon "no colon").1.mpr (by decide),
   (claim_C10_from_string_needs_colon "4:31").2 (by decide)⟩

/-- C9 counterexample: three well-formed minutes:seconds inputs with
single- or multi-digit numeric components that the
to_string-after-from_string composition does not reproduce: a
zero-padded seconds component, a seconds component of 60 or more, and a
minutes numeral beyond the u64 range (parsed as 0). -/
theorem claim_C9_counterexample :
    (ExtendDuration.from_string "4:05").map ExtendDuration.to_string ≠ some "4:05" ∧
    (ExtendDuration.from_string "1:75").map ExtendDuration.to_string ≠ some "1:75" ∧
    (ExtendDuration.from_string "99999999999999999999999:0").map
        ExtendDuration.to_string ≠ some "99999999999999999999999:0" := by
  refine ⟨?_, ?_, ?_⟩ <;> decide

/-- C9 (amended): to_string(from_string(s)) = s for every well-formed
"minutes:seconds" input whose components are canonically rendered
decimals (no leading zeros, sign or whitespace), whose seconds component
is below 60, and whose total seconds fit in u64. -/
theorem claim_C9_roundtrip (m s : Nat) (hs : s < 60)
    (hb : 60 * m + s < 2 ^ 64) :
    (ExtendDuration.from_string
        (String.mk (toDecimal m ++ ':' :: toDecimal s))).map ExtendDuration.to_string
      = some (String.mk (toDecimal m ++ ':' :: toDecimal s)) := by
  have hm64 : m < 2 ^ 64 := by omega
  have hs64 : s < 2 ^ 64 := by omega
  have hsp : splitOnce (toDecimal m ++ ':' :: toDecimal s) ':'
      = some (toDecimal m, toDecimal s) := by
    apply splitOnce_of_not_mem
    intro hm
    rcases toDecimal_mem hm with ⟨d, _, hcd⟩
    exact digitChar_ne_colon d hcd.symm
  have hfs : ExtendDuration.from_string (String.mk (toDecimal m ++ ':' :: toDecimal s))
      = some (60 * m + s) := by
    unfold ExtendDuration.from_string
    rw [show (String.mk (toDecimal m ++ ':' :: toDecimal s)).data
        = toDecimal m ++ ':' :: toDecimal s from rfl, hsp]
    show some ((60 * ((parse_u64 (trimChars (toDecimal m))).getD 0)
        + (parse_u64 (trimChars (toDecimal s))).getD 0) % 2 ^ 64) = _
    rw [trim_toDecimal, trim_toDecimal, parse_toDecimal hm64, parse_toDecimal hs64,
      Option.getD_some, Option.getD_some, Nat.mod_eq_of_lt hb]
  rw [hfs]
  show some (ExtendDuration.to_string (60 * m + s)) = _
  unfold ExtendDuration.to_string
  have hdiv : (60 * m + s) / 60 = m := by omega
  have hmod2 : (60 * m + s) % 60 = s := by omega
  rw [hdiv, hmod2]

/-- C9 witness: the 4:31 display duration of the repository's own test
survives the roundtrip. -/
theorem claim_C9_roundtrip_witness :
    (ExtendDuration.from_string
        (String.mk (toDecimal 4 ++ ':' :: toDecimal 31))).map ExtendDuration.to_string
      = some (String.mk (toDecimal 4 ++ ':' :: toDecimal 31)) :=
  claim_C9_roundtrip 4 31 (by decide) (by decide)
